import Mathlib

/-!
Verification of the dotman reconciliation engine.

Shallow embedding of the dotman sources (src/config.rs, src/utils.rs,
src/lib.rs, src/error.rs).  Paths and strings are modelled as lists of
characters; the filesystem is an association list from paths to entries;
all host interaction (probe commands, hostname discovery, I/O failures,
the interactive prompt) is modelled by oracles collected in `Env`.
Symlink chains are resolved one level when answering `is_dir`, matching
the single `stat` the code performs; longer chains are out of scope.
-/

namespace Dotman

/-- Strings and paths, modelled as lists of characters. -/
abbrev Str := List Char

/-- Rust `str::trim`: strip whitespace from both ends. -/
def trimStr (s : Str) : Str :=
  ((s.dropWhile (fun c => c.isWhitespace)).reverse.dropWhile
    (fun c => c.isWhitespace)).reverse

/-- Rust `str::to_lowercase` (ASCII-level model). -/
def toLowerStr (s : Str) : Str := s.map (fun c => c.toLower)

/-- `PathBuf::push` / `Path::join` for a relative component: insert a
separator unless the base already ends with one.  (Both call sites pass a
component with no leading separator, so the absolute-replacement case of
`join` never arises.) -/
def pathJoin (base comp : Str) : Str :=
  if base = [] then comp
  else if base.getLast? = some '/' then base ++ comp
  else base ++ '/' :: comp

/-- `config.rs` `OperatingSystem`. -/
inductive OperatingSystem
  | linux
  | macos
  | windows
deriving DecidableEq, Repr

/-- `config.rs` `Shell`. -/
inductive Shell
  | sh
  | bash
  | zsh
  | fish
deriving DecidableEq, Repr

/-- `config.rs` `RunCommand`. -/
inductive RunCommand
  | simple (cmd : Str)
  | complex (command : Str) (shell : Option Shell)
deriving DecidableEq, Repr

/-- `config.rs` `Hostname` matcher. -/
inductive Hostname
  | single (h : Str)
  | multiple (hs : List Str)
deriving DecidableEq, Repr

/-- `config.rs` `Condition`. -/
structure Condition where
  os : List OperatingSystem
  hostname : Option Hostname
  run : Option RunCommand
  file_exists : List Str
deriving DecidableEq, Repr

/-- `config.rs` `Link`. -/
structure Link where
  target : Str
  source : Str
  if_cond : Option Condition
  if_not_cond : Option Condition
  profiles : List Str
deriving DecidableEq, Repr

/-- `config.rs` `Action` (single `shell-command` variant). -/
inductive Action
  | shellCommand (name : Str) (run : RunCommand) (if_cond : Option Condition)
      (if_not_cond : Option Condition) (profiles : List Str)
deriving DecidableEq, Repr

/-- `config.rs` `DotmanConfig`. -/
structure DotmanConfig where
  config_path : Str
  links : List Link
  actions : List Action
  overwrite : Bool
  ask : Bool
  selected_profile : Option Str
deriving DecidableEq, Repr

/-- A filesystem entry: plain file, directory, or symbolic link storing
its verbatim destination. -/
inductive FsEntry
  | file
  | dir
  | symlink (dst : Str)
deriving DecidableEq, Repr

/-- The observable filesystem: association list from paths to entries
(first binding wins). -/
abbrev FS := List (Str × FsEntry)

def fsGet : FS → Str → Option FsEntry
  | [], _ => none
  | (q, e) :: rest, p => if q = p then some e else fsGet rest p

/-- `Path::exists`. -/
def fsExists (fs : FS) (p : Str) : Bool := (fsGet fs p).isSome

/-- `Path::is_dir` (follows a symlink one level, as `stat` does). -/
def fsIsDir (fs : FS) (p : Str) : Bool :=
  match fsGet fs p with
  | some .dir => true
  | some (.symlink d) =>
    match fsGet fs d with
    | some .dir => true
    | _ => false
  | _ => false

/-- `Path::is_symlink`. -/
def fsIsSymlink (fs : FS) (p : Str) : Bool :=
  match fsGet fs p with
  | some (.symlink _) => true
  | _ => false

/-- `Path::read_link` on the entry itself (failure is a separate oracle). -/
def fsReadLink (fs : FS) (p : Str) : Option Str :=
  match fsGet fs p with
  | some (.symlink d) => some d
  | _ => none

/-- `q` lies strictly below directory `p`. -/
def strictlyUnder (p q : Str) : Bool := (p ++ ['/']).isPrefixOf q

/-- `std::fs::remove_dir_all`: drop the entry and everything below it. -/
def fsRemoveTree (fs : FS) (p : Str) : FS :=
  fs.filter (fun ent => ! (decide (ent.1 = p) || strictlyUnder p ent.1))

/-- `std::fs::remove_file`: drop the single entry. -/
def fsRemoveFile (fs : FS) (p : Str) : FS :=
  fs.filter (fun ent => ! decide (ent.1 = p))

/-- `utils::symlink`: create at `target` a symlink pointing to `source`. -/
def fsSymlink (fs : FS) (source target : Str) : FS :=
  (target, .symlink source) :: fs

/-- Host oracles: everything the engine observes beyond the modelled
filesystem.  `runExec cmd` is the outcome of spawning `cmd` (`none` =
spawn error, `some b` = exit-success flag); the `*Fails` fields are the
I/O-failure oracles of the corresponding syscalls; `errMsg` is the
display text of the `io::Error` produced at a given path or name. -/
structure Env where
  os : OperatingSystem
  hostnameOutput : Option Str
  home : Option Str
  cwd : Str
  runExec : RunCommand → Option Bool
  stderrOf : RunCommand → Str
  removeFails : Str → Bool
  symlinkFails : Str → Bool
  readlinkFails : Str → Bool
  promptFails : Str → Bool
  promptInput : Str → Str
  errMsg : Str → Str

/-- `RunCommand::is_successful`: spawn errors count as failure. -/
def is_successful (env : Env) (cmd : RunCommand) : Bool :=
  (env.runExec cmd).getD false

/-- `utils::get_hostname`: trimmed stdout of the `hostname` command, or
the literal `"unknown"` when spawning it fails. -/
def get_hostname (env : Env) : Str :=
  match env.hostnameOutput with
  | some out => trimStr out
  | none => "unknown".toList

/-- The hostname argument `install` and `status` pass to condition
evaluation: `hostname.as_deref()` over the always-present result of
`get_hostname`. -/
def hostnameArg (env : Env) : Option Str := some (get_hostname env)

/-- `utils::ExpandTilde::expand_tilde_path`: a path starting with `~`
becomes home joined with the remainder (leading slashes trimmed); no
discoverable home is an error; other paths pass through unchanged. -/
def expand_tilde_path (env : Env) (p : Str) : Except Str Str :=
  if p.head? = some '~' then
    match env.home with
    | some home => .ok (pathJoin home ((p.drop 1).dropWhile (fun c => c == '/')))
    | none => .error ("Home directory not found".toList)
  else .ok p

/-- `utils::Absolute::absolute`: prepend the current directory to a
relative path.  (`current_dir` is modelled as always available.) -/
def absolutePath (env : Env) (p : Str) : Str :=
  if p.head? = some '/' then p else pathJoin env.cwd p

/-- The combined per-link resolution `expand_tilde_path()?.absolute()?`. -/
def resolvePath (env : Env) (p : Str) : Except Str Str :=
  match expand_tilde_path env p with
  | .ok q => .ok (absolutePath env q)
  | .error e => .error e

/-- `config.rs` private `expand_tilde` (used only by the `file_exists`
gate): expand only a literal `~/` prefix, and only when a home directory
is discoverable; otherwise return the path unchanged. -/
def config_expand_tilde (env : Env) (p : Str) : Str :=
  match env.home with
  | some home =>
    if ['~', '/'].isPrefixOf p then home ++ '/' :: p.drop 2
    else p
  | none => p

/-- The `file_exists` gate of `Condition::is_met`. -/
def files_exist_gate (env : Env) (fs : FS) (paths : List Str) : Bool :=
  paths.all (fun p => fsExists fs (config_expand_tilde env p))

/-- The hostname gate of `Condition::is_met`. -/
def hostname_matches (m : Option Hostname) (hostname : Option Str) : Bool :=
  match m with
  | none => true
  | some h =>
    match hostname with
    | none => false
    | some hn =>
      match h with
      | .single s => decide (s = hn)
      | .multiple hs => decide (hn ∈ hs)

/-- `Condition::is_met`. -/
def Condition.is_met (env : Env) (fs : FS) (c : Condition)
    (os : OperatingSystem) (hostname : Option Str) : Bool :=
  (decide (c.os = []) || decide (os ∈ c.os))
    && hostname_matches c.hostname hostname
    && (match c.run with
        | none => true
        | some cmd => is_successful env cmd)
    && files_exist_gate env fs c.file_exists

/-- `config.rs` `condition_is_met`: the positive/negative pair. -/
def condition_is_met (env : Env) (fs : FS)
    (if_cond if_not_cond : Option Condition)
    (os : OperatingSystem) (hostname : Option Str) : Bool :=
  (match if_cond with
   | none => true
   | some c => Condition.is_met env fs c os hostname)
  && (match if_not_cond with
      | none => true
      | some c => ! Condition.is_met env fs c os hostname)

/-- `Link::is_met`. -/
def Link.is_met (env : Env) (fs : FS) (l : Link)
    (os : OperatingSystem) (hostname : Option Str) : Bool :=
  condition_is_met env fs l.if_cond l.if_not_cond os hostname

def Action.profiles : Action → List Str
  | .shellCommand _ _ _ _ ps => ps

/-- `DotmanConfig::profile_matches`. -/
def profile_matches (cfg : DotmanConfig) (profiles : List Str) : Bool :=
  decide (profiles = [])
    || (match cfg.selected_profile with
        | some sel => decide (sel ∈ profiles)
        | none => false)

/-- `DotmanConfig::get_effective_links`. -/
def DotmanConfig.get_effective_links (cfg : DotmanConfig) : List Link :=
  cfg.links.filter (fun l => profile_matches cfg l.profiles)

/-- `DotmanConfig::get_effective_actions`. -/
def DotmanConfig.get_effective_actions (cfg : DotmanConfig) : List Action :=
  cfg.actions.filter (fun a => profile_matches cfg (Action.profiles a))

/-- Eligibility as the spec defines it: profile filter plus the
condition pair. -/
def linkEligible (cfg : DotmanConfig) (env : Env) (fs : FS) (l : Link) : Bool :=
  profile_matches cfg l.profiles
    && Link.is_met env fs l env.os (hostnameArg env)

/-- `error.rs` `DotmanError`. -/
inductive DotmanError
  | sourceFileNotFound (source : Str)
  | ioError (msg : Str)
  | commandError (command message : Str)
deriving DecidableEq, Repr

/-- One per-entry stdout record. -/
inductive Report
  | ignoredCondition (source : Str)
  | ignoredMissingSource (source : Str)
  | alreadyExistsWarning (target : Str)
  | skippedByUser
  | linked (source target : Str)
  | ignoredMissingTarget (target : Str)
  | removed (target : Str)
  | ignoredAction (name : Str)
  | actionStarted (name : Str)
  | actionSuccess (name : Str)
deriving DecidableEq, Repr

/-- Outcome of processing one link: continue the loop, or abort the
whole pass with an error.  Both carry the filesystem as left behind. -/
inductive StepResult
  | cont (recs : List Report) (fs : FS)
  | fatal (recs : List Report) (fs : FS) (e : DotmanError)
deriving DecidableEq, Repr

/-- The filesystem a step leaves behind. -/
def stepFs : StepResult → FS
  | .cont _ fs => fs
  | .fatal _ fs _ => fs

/-- Outcome of the `if target.exists()` block of `install`. -/
inductive ExistsOutcome
  | proceed (recs : List Report) (fs : FS)
  | skip (recs : List Report)
  | fatal (recs : List Report) (e : DotmanError)
deriving DecidableEq, Repr

/-- The `if target.exists()` block of `Dotman::install`: overwrite
removes the target (recursively when it is a directory), surfacing
removal failure as a fatal `IoError`; without overwrite the link is
skipped with a warning. -/
def handleExistingTarget (cfg : DotmanConfig) (env : Env) (fs : FS)
    (target : Str) : ExistsOutcome :=
  if cfg.overwrite then
    if fsIsDir fs target then
      if env.removeFails target then .fatal [] (.ioError (env.errMsg target))
      else .proceed [] (fsRemoveTree fs target)
    else
      if env.removeFails target then .fatal [] (.ioError (env.errMsg target))
      else .proceed [] (fsRemoveFile fs target)
  else .skip [.alreadyExistsWarning target]

/-- The consent check of the ask prompt: trim, lowercase, accept only
`y` / `yes`. -/
def askConsent (env : Env) (target : Str) : Bool :=
  let input := toLowerStr (trimStr (env.promptInput target))
  decide (input = "y".toList) || decide (input = "yes".toList)

/-- Symlink creation, with failure fatal. -/
def linkCreatePhase (env : Env) (fs : FS) (recs : List Report)
    (source target : Str) : StepResult :=
  if env.symlinkFails target then .fatal recs fs (.ioError (env.errMsg target))
  else .cont (recs ++ [.linked source target]) (fsSymlink fs source target)

/-- The ask-prompt-then-symlink tail of the install loop. -/
def askAndLink (cfg : DotmanConfig) (env : Env) (fs : FS)
    (recs : List Report) (source target : Str) : StepResult :=
  if cfg.ask then
    if env.promptFails target then .fatal recs fs (.ioError (env.errMsg target))
    else if ! askConsent env target then .cont (recs ++ [.skippedByUser]) fs
    else linkCreatePhase env fs recs source target
  else linkCreatePhase env fs recs source target

/-- One iteration of the link loop of `Dotman::install`. -/
def installLink (cfg : DotmanConfig) (env : Env) (fs : FS)
    (link : Link) : StepResult :=
  match resolvePath env link.source with
  | .error e => .fatal [] fs (.ioError e)
  | .ok source =>
    match resolvePath env link.target with
    | .error e => .fatal [] fs (.ioError e)
    | .ok target =>
      if ! Link.is_met env fs link env.os (hostnameArg env) then
        .cont [.ignoredCondition source] fs
      else if ! fsExists fs source then
        .cont [.ignoredMissingSource source] fs
      else
        match (if fsExists fs target then handleExistingTarget cfg env fs target
               else .proceed [] fs) with
        | .skip recs => .cont recs fs
        | .fatal recs e => .fatal recs fs e
        | .proceed recs fs1 => askAndLink cfg env fs1 recs source target

/-- The link loop of `Dotman::install`, fail-fast. -/
def processLinks (cfg : DotmanConfig) (env : Env) :
    FS → List Link → List Report × FS × Option DotmanError
  | fs, [] => ([], fs, none)
  | fs, l :: rest =>
    match installLink cfg env fs l with
    | .cont recs fs1 =>
      let r := processLinks cfg env fs1 rest
      (recs ++ r.1, r.2.1, r.2.2)
    | .fatal recs fs1 e => (recs, fs1, some e)

/-- One iteration of the action loop of `Dotman::install`.  (The effect
of the shell command on the real filesystem is outside the model.) -/
def runAction (env : Env) (fs : FS) (a : Action) :
    List Report × Option DotmanError :=
  match a with
  | .shellCommand name run ic inc _ =>
    if ! condition_is_met env fs ic inc env.os (hostnameArg env) then
      ([.ignoredAction name], none)
    else
      match env.runExec run with
      | none => ([.actionStarted name], some (.ioError (env.errMsg name)))
      | some true => ([.actionStarted name, .actionSuccess name], none)
      | some false =>
        ([.actionStarted name], some (.commandError name (env.stderrOf run)))

/-- The action loop of `Dotman::install`, fail-fast. -/
def processActions (env : Env) (fs : FS) :
    List Action → List Report × Option DotmanError
  | [] => ([], none)
  | a :: rest =>
    match runAction env fs a with
    | (recs, none) =>
      let r := processActions env fs rest
      (recs ++ r.1, r.2)
    | (recs, some e) => (recs, some e)

/-- `Dotman::install` over explicit entry lists. -/
def installOn (cfg : DotmanConfig) (env : Env) (fs : FS)
    (links : List Link) (actions : List Action) :
    List Report × FS × Option DotmanError :=
  match processLinks cfg env fs links with
  | (recs, fs1, some e) => (recs, fs1, some e)
  | (recs, fs1, none) =>
    let a := processActions env fs1 actions
    (recs ++ a.1, fs1, a.2)

/-- `Dotman::install`: consumes the effective (profile-filtered) lists. -/
def install (cfg : DotmanConfig) (env : Env) (fs : FS) :
    List Report × FS × Option DotmanError :=
  installOn cfg env fs cfg.get_effective_links cfg.get_effective_actions

/-- One iteration of the loop of `Dotman::remove`: no condition
evaluation, remove whatever occupies the resolved target. -/
def removeLink (env : Env) (fs : FS) (link : Link) : StepResult :=
  match resolvePath env link.target with
  | .error e => .fatal [] fs (.ioError e)
  | .ok target =>
    if ! fsExists fs target then .cont [.ignoredMissingTarget target] fs
    else if fsIsDir fs target then
      if env.removeFails target then .fatal [] fs (.ioError (env.errMsg target))
      else .cont [.removed target] (fsRemoveTree fs target)
    else
      if env.removeFails target then .fatal [] fs (.ioError (env.errMsg target))
      else .cont [.removed target] (fsRemoveFile fs target)

/-- The loop of `Dotman::remove`, fail-fast. -/
def removeOn (env : Env) : FS → List Link → List Report × FS × Option DotmanError
  | fs, [] => ([], fs, none)
  | fs, l :: rest =>
    match removeLink env fs l with
    | .cont recs fs1 =>
      let r := removeOn env fs1 rest
      (recs ++ r.1, r.2.1, r.2.2)
    | .fatal recs fs1 e => (recs, fs1, some e)

/-- `Dotman::remove`: consumes the effective (profile-filtered) links. -/
def remove (cfg : DotmanConfig) (env : Env) (fs : FS) :
    List Report × FS × Option DotmanError :=
  removeOn env fs cfg.get_effective_links

/-- The per-link classification of `Dotman::status`. -/
inductive StatusClass
  | conditionNotMet
  | sourceMissing
  | notLinked
  | okLinked
  | wrongTarget (actual : Str)
  | symlinkError
  | existsNotSymlink
deriving DecidableEq, Repr

/-- One iteration of the link loop of `Dotman::status`. -/
def statusLink (env : Env) (fs : FS) (link : Link) :
    Except DotmanError StatusClass :=
  match resolvePath env link.source with
  | .error e => .error (.ioError e)
  | .ok source =>
    match resolvePath env link.target with
    | .error e => .error (.ioError e)
    | .ok target =>
      if ! Link.is_met env fs link env.os (hostnameArg env) then
        .ok .conditionNotMet
      else if ! fsExists fs source then .ok .sourceMissing
      else if ! fsExists fs target then .ok .notLinked
      else if fsIsSymlink fs target then
        if env.readlinkFails target then .ok .symlinkError
        else
          match fsReadLink fs target with
          | some actual =>
            if actual = source then .ok .okLinked
            else .ok (.wrongTarget actual)
          | none => .ok .symlinkError
      else .ok .existsNotSymlink

/-- The link loop of `Dotman::status`. -/
def statusLinks (env : Env) (fs : FS) :
    List Link → Except DotmanError (List StatusClass)
  | [] => .ok []
  | l :: rest =>
    match statusLink env fs l with
    | .error e => .error e
    | .ok c =>
      match statusLinks env fs rest with
      | .error e => .error e
      | .ok cs => .ok (c :: cs)

/-- The action classification of `Dotman::status` (`READY TO RUN`?). -/
def actionReady (env : Env) (fs : FS) (a : Action) : Bool :=
  match a with
  | .shellCommand _ _ ic inc _ =>
    condition_is_met env fs ic inc env.os (hostnameArg env)

/-- `Dotman::status` over explicit entry lists. -/
def statusOn (env : Env) (fs : FS) (links : List Link)
    (actions : List Action) :
    Except DotmanError (List StatusClass × List Bool) :=
  match statusLinks env fs links with
  | .error e => .error e
  | .ok cs => .ok (cs, actions.map (actionReady env fs))

/-- `Dotman::status`: consumes the effective (profile-filtered) lists. -/
def status (cfg : DotmanConfig) (env : Env) (fs : FS) :
    Except DotmanError (List StatusClass × List Bool) :=
  statusOn env fs cfg.get_effective_links cfg.get_effective_actions

/-! ### Spec-side gate definitions

These follow the wording of the specification (not the code); the
refinement theorems compare `Condition.is_met` against them. -/

/-- Spec wording: the OS list is empty or contains the host OS. -/
def osGateSpec (c : Condition) (os : OperatingSystem) : Prop :=
  c.os = [] ∨ os ∈ c.os

/-- Spec wording: the matcher is absent, or the host name is present and
equals the single matcher string / is a member of the matcher list. -/
def hostnameGateSpec (m : Option Hostname) (hn : Option Str) : Prop :=
  match m with
  | none => True
  | some (.single s) => ∃ h, hn = some h ∧ h = s
  | some (.multiple hs) => ∃ h, hn = some h ∧ h ∈ hs

/-- Spec wording: the probe command is absent or exits with success. -/
def runGateSpec (env : Env) (r : Option RunCommand) : Prop :=
  match r with
  | none => True
  | some cmd => is_successful env cmd = true

/-- Spec wording: every listed path, after tilde expansion, exists. -/
def filesGateSpec (env : Env) (fs : FS) (paths : List Str) : Prop :=
  ∀ p ∈ paths, fsExists fs (config_expand_tilde env p) = true

/-! ### Error-taxonomy predicates -/

/-- The option holds no `SourceFileNotFound` error. -/
def notSFNF : Option DotmanError → Prop
  | some (.sourceFileNotFound _) => False
  | _ => True

/-- A step's error, if any, is not `SourceFileNotFound`. -/
def stepErrOk : StepResult → Prop
  | .cont _ _ => True
  | .fatal _ _ (.sourceFileNotFound _) => False
  | .fatal _ _ _ => True

/-- The exception, if any, is not `SourceFileNotFound`. -/
def exceptNotSFNF {α : Type} : Except DotmanError α → Prop
  | .error (.sourceFileNotFound _) => False
  | _ => True

/-! ### Concrete fixtures for witnesses and counterexamples -/

/-- A host where every oracle behaves: all syscalls succeed, probes
succeed, the hostname command prints `myhost`. -/
def benignEnv : Env where
  os := .linux
  hostnameOutput := some ("myhost".toList)
  home := some ("/home/u".toList)
  cwd := "/cwd".toList
  runExec := fun _ => some true
  stderrOf := fun _ => []
  removeFails := fun _ => false
  symlinkFails := fun _ => false
  readlinkFails := fun _ => false
  promptFails := fun _ => false
  promptInput := fun _ => []
  errMsg := fun _ => []

/-- Link whose `if` condition requires Linux. -/
def linkC1 : Link where
  target := "/t1".toList
  source := "/s1".toList
  if_cond := some { os := [.linux], hostname := none, run := none, file_exists := [] }
  if_not_cond := none
  profiles := []

def cfgC1 : DotmanConfig where
  config_path := []
  links := [linkC1]
  actions := []
  overwrite := false
  ask := false
  selected_profile := none

/-- A macOS host, so `linkC1` fails its condition. -/
def envC1 : Env := { benignEnv with os := .macos }

def fsC1 : FS := [("/t1".toList, .file)]

def linkC3 : Link where
  target := "/t3".toList
  source := "/s3".toList
  if_cond := none
  if_not_cond := none
  profiles := []

def cfgC3 : DotmanConfig where
  config_path := []
  links := [linkC3]
  actions := []
  overwrite := false
  ask := false
  selected_profile := none

def fsC3 : FS := [("/s3".toList, .file), ("/t3".toList, .file)]

def linkC4 : Link where
  target := "/t4".toList
  source := "/s4".toList
  if_cond := none
  if_not_cond := none
  profiles := []

def fsC4 : FS := [("/s4".toList, .file), ("/t4".toList, .symlink ("/s4".toList))]

def linkC5 : Link where
  target := "/t5".toList
  source := "/s5".toList
  if_cond := none
  if_not_cond := none
  profiles := []

/-- Overwrite enabled: the configuration of the C5 counterexample. -/
def cfgC5 : DotmanConfig where
  config_path := []
  links := [linkC5]
  actions := []
  overwrite := true
  ask := false
  selected_profile := none

/-- Same configuration with overwrite disabled. -/
def cfgC5w : DotmanConfig := { cfgC5 with overwrite := false }

def fsC5 : FS := [("/s5".toList, .file)]

def linkC8 : Link where
  target := "/t8".toList
  source := "/s8".toList
  if_cond := none
  if_not_cond := none
  profiles := []

def cfgC8 : DotmanConfig where
  config_path := []
  links := [linkC8]
  actions := []
  overwrite := false
  ask := false
  selected_profile := none

/-- A host where spawning the `hostname` command fails. -/
def envC10 : Env := { benignEnv with hostnameOutput := none }

/-! ### Auxiliary lemmas -/

theorem head_dropWhile_false (f : Char → Bool) :
    ∀ (l : Str) (a : Char), (l.dropWhile f).head? = some a → f a = false := by
  intro l
  induction l with
  | nil => intro a h; simp [List.dropWhile] at h
  | cons c cs ih =>
    intro a h
    rw [List.dropWhile_cons] at h
    by_cases hc : f c
    · rw [if_pos hc] at h
      exact ih a h
    · rw [if_neg hc] at h
      simp only [List.head?_cons, Option.some.injEq] at h
      subst h
      simpa using hc

theorem os_gate_iff (c : Condition) (os : OperatingSystem) :
    (decide (c.os = []) || decide (os ∈ c.os)) = true ↔ osGateSpec c os := by
  simp [osGateSpec]

theorem hostname_matches_iff (m : Option Hostname) (hn : Option Str) :
    hostname_matches m hn = true ↔ hostnameGateSpec m hn := by
  cases m with
  | none => simp [hostname_matches, hostnameGateSpec]
  | some h =>
    cases h with
    | single s =>
      cases hn with
      | none => simp [hostname_matches, hostnameGateSpec]
      | some a => simp [hostname_matches, hostnameGateSpec, eq_comm]
    | multiple hs =>
      cases hn with
      | none => simp [hostname_matches, hostnameGateSpec]
      | some a => simp [hostname_matches, hostnameGateSpec]

theorem run_gate_iff (env : Env) (r : Option RunCommand) :
    (match r with
     | none => true
     | some cmd => is_successful env cmd) = true ↔ runGateSpec env r := by
  cases r <;> simp [runGateSpec]

theorem files_gate_iff (env : Env) (fs : FS) (ps : List Str) :
    files_exist_gate env fs ps = true ↔ filesGateSpec env fs ps := by
  simp [files_exist_gate, filesGateSpec, List.all_eq_true]

/-! ### Claim theorems -/

/-- C2: `Condition::is_met` returns true iff all four gates hold: the
OS list is empty or contains the host OS; the hostname matcher is
absent, or the host name is present and equals the single matcher /
is a member of the matcher list (an absent host name with a present
matcher yields false, since the gate then requires a witness); the
probe is absent or succeeds; and every `file_exists` path, after tilde
expansion, exists. -/
theorem condition_is_met_iff_gates (env : Env) (fs : FS) (c : Condition)
    (os : OperatingSystem) (hn : Option Str) :
    Condition.is_met env fs c os hn = true ↔
      (osGateSpec c os ∧ hostnameGateSpec c.hostname hn ∧
       runGateSpec env c.run ∧ filesGateSpec env fs c.file_exists) := by
  unfold Condition.is_met
  rw [Bool.and_eq_true, Bool.and_eq_true, Bool.and_eq_true,
    os_gate_iff, hostname_matches_iff, run_gate_iff, files_gate_iff]
  tauto

/-- C6: `expand_tilde_path` maps `~/rest` to the home directory joined
to the remainder with exactly one separator (the home has no trailing
separator and the remainder's leading separators are consumed), and
returns any input not beginning with `~` byte-identical. -/
theorem expand_tilde_path_spec (env : Env) (home rest q : Str)
    (hhome : env.home = some home) (hne : home ≠ [])
    (hsl : home.getLast? ≠ some '/') :
    (expand_tilde_path env ('~' :: '/' :: rest) =
        .ok (home ++ '/' :: rest.dropWhile (fun c => c == '/'))
      ∧ (rest.dropWhile (fun c => c == '/')).head? ≠ some '/')
    ∧ (q.head? ≠ some '~' → expand_tilde_path env q = .ok q) := by
  refine ⟨⟨?_, ?_⟩, ?_⟩
  · have h1 : (('~' :: '/' :: rest : Str)).head? = some '~' := rfl
    rw [expand_tilde_path, if_pos h1, hhome]
    have h2 : (('~' :: '/' :: rest : Str)).drop 1 = '/' :: rest := rfl
    rw [h2, List.dropWhile_cons, if_pos (by rfl)]
    simp only [pathJoin, if_neg hne, if_neg hsl]
  · intro hc
    have := head_dropWhile_false (fun c => c == '/') rest '/' hc
    simp at this
  · intro hq
    rw [expand_tilde_path, if_neg hq]

/-- C6 witness. -/
theorem expand_tilde_path_spec_witness :
    expand_tilde_path benignEnv ('~' :: '/' :: "x".toList) =
      .ok (("/home/u".toList) ++ '/' :: ("x".toList).dropWhile (fun c => c == '/')) :=
  ((expand_tilde_path_spec benignEnv ("/home/u".toList) ("x".toList)
    ("a".toList) rfl (by decide) (by decide)).1).1

/-- C7: an entry passes the profile filter iff its profiles list is
empty or the selected profile is a member; the effective lists contain
exactly the passing entries; and install, remove and status consume the
effective lists. -/
theorem profile_filter_spec (cfg : DotmanConfig) (ps : List Str)
    (l : Link) (a : Action) :
    (profile_matches cfg ps = true ↔
      ps = [] ∨ ∃ s, cfg.selected_profile = some s ∧ s ∈ ps)
    ∧ (l ∈ cfg.get_effective_links ↔
        l ∈ cfg.links ∧ profile_matches cfg l.profiles = true)
    ∧ (a ∈ cfg.get_effective_actions ↔
        a ∈ cfg.actions ∧ profile_matches cfg (Action.profiles a) = true)
    ∧ (∀ env fs, install cfg env fs =
        installOn cfg env fs cfg.get_effective_links cfg.get_effective_actions)
    ∧ (∀ env fs, remove cfg env fs = removeOn env fs cfg.get_effective_links)
    ∧ (∀ env fs, status cfg env fs =
        statusOn env fs cfg.get_effective_links cfg.get_effective_actions) := by
  refine ⟨?_, ?_, ?_, fun env fs => rfl, fun env fs => rfl, fun env fs => rfl⟩
  · unfold profile_matches
    cases hsel : cfg.selected_profile with
    | none => simp
    | some sel => simp
  · simp [DotmanConfig.get_effective_links, List.mem_filter]
  · simp [DotmanConfig.get_effective_actions, List.mem_filter]

/-- C9: the tilde expansion of the `file_exists` gate expands only
paths beginning with `~/` and only when a home directory exists;
otherwise the path is tested unexpanded; and the gate is total,
returning only true or false. -/
theorem config_tilde_gate_total (env : Env) (fs : FS) (p rest home : Str)
    (ps : List Str) :
    (env.home = some home →
      config_expand_tilde env ('~' :: '/' :: rest) = home ++ '/' :: rest)
    ∧ (env.home = none → config_expand_tilde env p = p)
    ∧ (¬ (['~', '/'].isPrefixOf p = true) → config_expand_tilde env p = p)
    ∧ (files_exist_gate env fs ps = true ∨ files_exist_gate env fs ps = false) := by
  refine ⟨?_, ?_, ?_, ?_⟩
  · intro hh
    simp [config_expand_tilde, hh, List.isPrefixOf]
  · intro hh
    simp [config_expand_tilde, hh]
  · intro hnp
    unfold config_expand_tilde
    cases hh : env.home with
    | none => rfl
    | some h => simp [hnp]
  · cases hb : files_exist_gate env fs ps
    · exact Or.inr rfl
    · exact Or.inl rfl

/-- C9 witness. -/
theorem config_tilde_gate_total_witness :
    config_expand_tilde benignEnv ('~' :: '/' :: "y".toList) =
      ("/home/u".toList) ++ '/' :: "y".toList :=
  (config_tilde_gate_total benignEnv [] ("z".toList) ("y".toList)
    ("/home/u".toList) []).1 rfl

/-- C10: the hostname argument passed to condition evaluation by
install and status is always present; when spawning the `hostname`
command fails, discovery yields the literal `unknown`, and a hostname
matcher containing `unknown` matches on such a host. -/
theorem hostname_always_present (env : Env) (hs : List Str) :
    (∃ h, hostnameArg env = some h)
    ∧ (env.hostnameOutput = none → get_hostname env = "unknown".toList)
    ∧ (env.hostnameOutput = none →
        hostname_matches (some (.single ("unknown".toList)))
          (hostnameArg env) = true)
    ∧ (env.hostnameOutput = none → "unknown".toList ∈ hs →
        hostname_matches (some (.multiple hs)) (hostnameArg env) = true) := by
  refine ⟨⟨get_hostname env, rfl⟩, ?_, ?_, ?_⟩
  · intro hn
    simp [get_hostname, hn]
  · intro hn
    simp [hostname_matches, hostnameArg, get_hostname, hn]
  · intro hn hmem
    simp [hostname_matches, hostnameArg, get_hostname, hn]
    exact hmem

/-- C10 witness. -/
theorem hostname_always_present_witness :
    get_hostname envC10 = "unknown".toList ∧
    hostname_matches (some (.single ("unknown".toList)))
      (hostnameArg envC10) = true :=
  ⟨(hostname_always_present envC10 []).2.1 rfl,
   (hostname_always_present envC10 []).2.2.1 rfl⟩

/-- C1 counterexample: `linkC1` is not eligible (its `if` condition
requires Linux, the host is macOS), yet `remove` deletes the entry at
its resolved target path — `remove` evaluates no conditions. -/
theorem noneligible_remove_mutates :
    linkEligible cfgC1 envC1 fsC1 linkC1 = false
    ∧ fsExists fsC1 ("/t1".toList) = true
    ∧ (remove cfgC1 envC1 fsC1).1 = [.removed ("/t1".toList)]
    ∧ fsExists ((remove cfgC1 envC1 fsC1).2.1) ("/t1".toList) = false := by
  decide

/-- C1 (amended): install never mutates the filesystem when processing
a link whose condition pair fails, and a link failing the profile
filter is absent from the effective list that both install and remove
iterate; but remove itself performs no condition evaluation, so a
profile-effective link is removed even when its conditions fail. -/
theorem noneligible_install_no_mutation (cfg : DotmanConfig) (env : Env)
    (fs : FS) (l : Link)
    (h : Link.is_met env fs l env.os (hostnameArg env) = false) :
    stepFs (installLink cfg env fs l) = fs
    ∧ (profile_matches cfg l.profiles = false →
        l ∉ cfg.get_effective_links) := by
  constructor
  · cases hs : resolvePath env l.source with
    | error e => simp [installLink, hs, stepFs]
    | ok s =>
      cases ht : resolvePath env l.target with
      | error e => simp [installLink, hs, ht, stepFs]
      | ok t => simp [installLink, hs, ht, h, stepFs]
  · intro hp
    simp [DotmanConfig.get_effective_links, List.mem_filter, hp]

/-- C1 (amended) witness. -/
theorem noneligible_install_no_mutation_witness :
    stepFs (installLink cfgC1 envC1 fsC1 linkC1) = fsC1 :=
  (noneligible_install_no_mutation cfgC1 envC1 fsC1 linkC1 (by decide)).1

/-- C3: for an eligible link with existing source and existing target,
install without overwrite emits the already-exists warning and leaves
the filesystem unchanged; with overwrite the target is removed
(recursively when a directory, by file removal otherwise) and a removal
failure is a fatal `IoError` that aborts the whole pass regardless of
the remaining links. -/
theorem install_target_exists_policy (cfg : DotmanConfig) (env : Env)
    (fs : FS) (l : Link) (s t : Str)
    (hs : resolvePath env l.source = .ok s)
    (ht : resolvePath env l.target = .ok t)
    (hm : Link.is_met env fs l env.os (hostnameArg env) = true)
    (hse : fsExists fs s = true)
    (hte : fsExists fs t = true) :
    (cfg.overwrite = false →
      installLink cfg env fs l = .cont [.alreadyExistsWarning t] fs)
    ∧ (cfg.overwrite = true → env.removeFails t = true →
        installLink cfg env fs l = .fatal [] fs (.ioError (env.errMsg t))
        ∧ ∀ rest, processLinks cfg env fs (l :: rest) =
            ([], fs, some (.ioError (env.errMsg t))))
    ∧ (cfg.overwrite = true → env.removeFails t = false →
        installLink cfg env fs l =
          askAndLink cfg env
            (if fsIsDir fs t then fsRemoveTree fs t else fsRemoveFile fs t)
            [] s t) := by
  refine ⟨?_, ?_, ?_⟩
  · intro hov
    simp [installLink, hs, ht, hm, hse, hte, handleExistingTarget, hov]
  · intro hov hrf
    have h1 : installLink cfg env fs l = .fatal [] fs (.ioError (env.errMsg t)) := by
      cases hd : fsIsDir fs t <;>
        simp [installLink, hs, ht, hm, hse, hte, handleExistingTarget, hov, hrf, hd]
    refine ⟨h1, fun rest => ?_⟩
    simp [processLinks, h1]
  · intro hov hrf
    cases hd : fsIsDir fs t <;>
      simp [installLink, hs, ht, hm, hse, hte, handleExistingTarget, hov, hrf, hd]

/-- C3 witness (overwrite disabled, warning emitted, target untouched). -/
theorem install_target_exists_policy_witness :
    installLink cfgC3 benignEnv fsC3 linkC3 =
      .cont [.alreadyExistsWarning ("/t3".toList)] fsC3 :=
  (install_target_exists_policy cfgC3 benignEnv fsC3 linkC3
    ("/s3".toList) ("/t3".toList) rfl rfl (by decide) (by decide)
    (by decide)).1 rfl

/-- C4: for an eligible link with existing source whose target is a
symlink on which readlink succeeds, status reports OK iff the stored
link destination equals the resolved source exactly (string equality,
no canonicalization), and WRONG TARGET iff it differs. -/
theorem status_symlink_classification (env : Env) (fs : FS) (l : Link)
    (s t d : Str)
    (hs : resolvePath env l.source = .ok s)
    (ht : resolvePath env l.target = .ok t)
    (hm : Link.is_met env fs l env.os (hostnameArg env) = true)
    (hse : fsExists fs s = true)
    (hsym : fsGet fs t = some (.symlink d))
    (hrl : env.readlinkFails t = false) :
    (statusLink env fs l = .ok .okLinked ↔ d = s)
    ∧ (statusLink env fs l = .ok (.wrongTarget d) ↔ d ≠ s) := by
  have hte : fsExists fs t = true := by simp [fsExists, hsym]
  have hsl : fsIsSymlink fs t = true := by simp [fsIsSymlink, hsym]
  have hread : fsReadLink fs t = some d := by simp [fsReadLink, hsym]
  constructor
  · constructor
    · intro hcl
      by_contra hne
      simp [statusLink, hs, ht, hm, hse, hte, hsl, hrl, hread, hne] at hcl
    · intro hds
      simp [statusLink, hs, ht, hm, hse, hte, hsl, hrl, hread, hds]
  · constructor
    · intro hcl hds
      simp [statusLink, hs, ht, hm, hse, hte, hsl, hrl, hread, hds] at hcl
    · intro hds
      simp [statusLink, hs, ht, hm, hse, hte, hsl, hrl, hread, hds]

/-- C4 witness (a correctly-pointing symlink classifies as OK). -/
theorem status_symlink_classification_witness :
    statusLink benignEnv fsC4 linkC4 = .ok .okLinked :=
  (status_symlink_classification benignEnv fsC4 linkC4
    ("/s4".toList) ("/t4".toList) ("/s4".toList)
    rfl rfl (by decide) (by decide) (by decide) rfl).1.mpr rfl

/-- C5 counterexample: with the same configuration but `overwrite`
enabled, the second install re-links instead of emitting the
already-exists warning (the filesystem state does coincide after both
runs, but the claimed warning-and-no-mutation behaviour fails). -/
theorem install_overwrite_relinks :
    (install cfgC5 benignEnv fsC5).1 =
      [.linked ("/s5".toList) ("/t5".toList)]
    ∧ (install cfgC5 benignEnv ((install cfgC5 benignEnv fsC5).2.1)).1 =
        [.linked ("/s5".toList) ("/t5".toList)]
    ∧ Report.alreadyExistsWarning ("/t5".toList) ∉
        (install cfgC5 benignEnv ((install cfgC5 benignEnv fsC5).2.1)).1
    ∧ (install cfgC5 benignEnv ((install cfgC5 benignEnv fsC5).2.1)).2.1 =
        (install cfgC5 benignEnv fsC5).2.1 := by
  decide

/-- C5 (amended): for a single-link configuration with overwrite and
ask disabled, an eligible link with existing source, clean target and
no symlink failure installs to a symlink; a second install with the
same configuration emits the already-exists warning and leaves the
filesystem exactly as after the first run. -/
theorem install_idempotent_on_clean_target (cfg : DotmanConfig)
    (env : Env) (fs : FS) (l : Link) (s t : Str)
    (hlinks : cfg.links = [l]) (hacts : cfg.actions = [])
    (hov : cfg.overwrite = false) (hask : cfg.ask = false)
    (hprof : profile_matches cfg l.profiles = true)
    (hs : resolvePath env l.source = .ok s)
    (ht : resolvePath env l.target = .ok t)
    (hm1 : Link.is_met env fs l env.os (hostnameArg env) = true)
    (hm2 : Link.is_met env (fsSymlink fs s t) l env.os (hostnameArg env) = true)
    (hse : fsExists fs s = true)
    (hte : fsExists fs t = false)
    (hsf : env.symlinkFails t = false) :
    install cfg env fs = ([.linked s t], fsSymlink fs s t, none)
    ∧ install cfg env (fsSymlink fs s t) =
        ([.alreadyExistsWarning t], fsSymlink fs s t, none) := by
  have heff : cfg.get_effective_links = [l] := by
    simp [DotmanConfig.get_effective_links, hlinks, hprof]
  have heffa : cfg.get_effective_actions = [] := by
    simp [DotmanConfig.get_effective_actions, hacts]
  have hstep1 : installLink cfg env fs l =
      .cont [.linked s t] (fsSymlink fs s t) := by
    simp [installLink, hs, ht, hm1, hse, hte, askAndLink, hask,
      linkCreatePhase, hsf]
  have hse2 : fsExists (fsSymlink fs s t) s = true := by
    simp only [fsExists, fsSymlink, fsGet]
    split
    · rfl
    · exact hse
  have hte2 : fsExists (fsSymlink fs s t) t = true := by
    simp [fsExists, fsSymlink, fsGet]
  have hstep2 : installLink cfg env (fsSymlink fs s t) l =
      .cont [.alreadyExistsWarning t] (fsSymlink fs s t) := by
    simp [installLink, hs, ht, hm2, hse2, hte2, handleExistingTarget, hov]
  constructor
  · simp [install, installOn, heff, heffa, processLinks, hstep1,
      processActions]
  · simp [install, installOn, heff, heffa, processLinks, hstep2,
      processActions]

/-- C5 (amended) witness. -/
theorem install_idempotent_on_clean_target_witness :
    install cfgC5w benignEnv fsC5 =
      ([.linked ("/s5".toList) ("/t5".toList)],
       fsSymlink fsC5 ("/s5".toList) ("/t5".toList), none)
    ∧ install cfgC5w benignEnv (fsSymlink fsC5 ("/s5".toList) ("/t5".toList)) =
      ([.alreadyExistsWarning ("/t5".toList)],
       fsSymlink fsC5 ("/s5".toList) ("/t5".toList), none) :=
  install_idempotent_on_clean_target cfgC5w benignEnv fsC5 linkC5
    ("/s5".toList) ("/t5".toList) rfl rfl rfl rfl (by decide) rfl rfl
    (by decide) (by decide) (by decide) (by decide) (by decide)

/-! ### No operation raises `SourceFileNotFound` -/

theorem askAndLink_no_sfnf (cfg : DotmanConfig) (env : Env) (fs : FS)
    (recs : List Report) (s t : Str) :
    stepErrOk (askAndLink cfg env fs recs s t) := by
  unfold askAndLink linkCreatePhase
  repeat' split
  all_goals simp [stepErrOk]

theorem handleExistingTarget_fatal_io (cfg : DotmanConfig) (env : Env)
    (fs : FS) (t : Str) (recs : List Report) (e : DotmanError)
    (h : handleExistingTarget cfg env fs t = .fatal recs e) :
    ∃ m, e = .ioError m := by
  unfold handleExistingTarget at h
  repeat' split at h
  all_goals cases h
  all_goals exact ⟨_, rfl⟩

theorem installLink_no_sfnf (cfg : DotmanConfig) (env : Env) (fs : FS)
    (l : Link) : stepErrOk (installLink cfg env fs l) := by
  cases hs : resolvePath env l.source with
  | error e => simp [installLink, hs, stepErrOk]
  | ok s =>
    cases ht : resolvePath env l.target with
    | error e => simp [installLink, hs, ht, stepErrOk]
    | ok t =>
      cases hm : Link.is_met env fs l env.os (hostnameArg env) with
      | false => simp [installLink, hs, ht, hm, stepErrOk]
      | true =>
        cases hsrc : fsExists fs s with
        | false => simp [installLink, hs, ht, hm, hsrc, stepErrOk]
        | true =>
          cases hte : fsExists fs t with
          | false =>
            simp only [installLink, hs, ht, hm, hsrc, hte]
            simpa using askAndLink_no_sfnf cfg env fs [] s t
          | true =>
            cases hh : handleExistingTarget cfg env fs t with
            | proceed recs2 fs2 =>
              simp only [installLink, hs, ht, hm, hsrc, hte]
              simpa [hh] using askAndLink_no_sfnf cfg env fs2 recs2 s t
            | skip recs2 => simp [installLink, hs, ht, hm, hsrc, hte, hh, stepErrOk]
            | fatal recs2 e2 =>
              obtain ⟨m, rfl⟩ := handleExistingTarget_fatal_io cfg env fs t recs2 e2 hh
              simp [installLink, hs, ht, hm, hsrc, hte, hh, stepErrOk]

theorem processLinks_no_sfnf (cfg : DotmanConfig) (env : Env) :
    ∀ (links : List Link) (fs : FS),
      notSFNF (processLinks cfg env fs links).2.2 := by
  intro links
  induction links with
  | nil => intro fs; simp [processLinks, notSFNF]
  | cons l rest ih =>
    intro fs
    have h1 := installLink_no_sfnf cfg env fs l
    cases hil : installLink cfg env fs l with
    | cont recs fs1 => simpa [processLinks, hil] using ih fs1
    | fatal recs fs1 e =>
      rw [hil] at h1
      have hgoal : (processLinks cfg env fs (l :: rest)).2.2 = some e := by
        simp [processLinks, hil]
      rw [hgoal]
      cases e with
      | sourceFileNotFound src => simp [stepErrOk] at h1
      | ioError m => simp [notSFNF]
      | commandError c m => simp [notSFNF]

theorem runAction_no_sfnf (env : Env) (fs : FS) (a : Action) :
    notSFNF (runAction env fs a).2 := by
  unfold runAction
  repeat' split
  all_goals simp [notSFNF]

theorem processActions_no_sfnf (env : Env) (fs : FS) :
    ∀ (actions : List Action),
      notSFNF (processActions env fs actions).2 := by
  intro actions
  induction actions with
  | nil => simp [processActions, notSFNF]
  | cons a rest ih =>
    have h1 := runAction_no_sfnf env fs a
    cases hra : runAction env fs a with
    | mk recs eo =>
      rw [hra] at h1
      cases eo with
      | none => simpa [processActions, hra] using ih
      | some e => cases e <;> simp_all [processActions, notSFNF]

theorem install_no_sfnf (cfg : DotmanConfig) (env : Env) (fs : FS) :
    notSFNF (install cfg env fs).2.2 := by
  unfold install installOn
  have hl := processLinks_no_sfnf cfg env cfg.get_effective_links fs
  rcases hp : processLinks cfg env fs cfg.get_effective_links with ⟨recs, fs1, eo⟩
  rw [hp] at hl
  cases eo with
  | some e => simpa [hp] using hl
  | none => simpa [hp] using processActions_no_sfnf env fs1 cfg.get_effective_actions

theorem removeLink_no_sfnf (env : Env) (fs : FS) (l : Link) :
    stepErrOk (removeLink env fs l) := by
  unfold removeLink
  repeat' split
  all_goals simp [stepErrOk]

theorem removeOn_no_sfnf (env : Env) :
    ∀ (links : List Link) (fs : FS),
      notSFNF (removeOn env fs links).2.2 := by
  intro links
  induction links with
  | nil => intro fs; simp [removeOn, notSFNF]
  | cons l rest ih =>
    intro fs
    have h1 := removeLink_no_sfnf env fs l
    cases hrl : removeLink env fs l with
    | cont recs fs1 => simpa [removeOn, hrl] using ih fs1
    | fatal recs fs1 e =>
      rw [hrl] at h1
      have hgoal : (removeOn env fs (l :: rest)).2.2 = some e := by
        simp [removeOn, hrl]
      rw [hgoal]
      cases e with
      | sourceFileNotFound src => simp [stepErrOk] at h1
      | ioError m => simp [notSFNF]
      | commandError c m => simp [notSFNF]

theorem statusLink_no_sfnf (env : Env) (fs : FS) (l : Link) :
    exceptNotSFNF (statusLink env fs l) := by
  unfold statusLink
  repeat' split
  all_goals simp [exceptNotSFNF]

theorem statusLinks_no_sfnf (env : Env) (fs : FS) :
    ∀ (links : List Link),
      exceptNotSFNF (statusLinks env fs links) := by
  intro links
  induction links with
  | nil => simp [statusLinks, exceptNotSFNF]
  | cons l rest ih =>
    have h1 := statusLink_no_sfnf env fs l
    cases h2 : statusLink env fs l with
    | error e =>
      rw [h2] at h1
      cases e <;> simp_all [statusLinks, exceptNotSFNF]
    | ok c =>
      cases h3 : statusLinks env fs rest with
      | error e =>
        rw [h3] at ih
        cases e <;> simp_all [statusLinks, exceptNotSFNF]
      | ok cs => simp [statusLinks, h2, h3, exceptNotSFNF]

theorem status_no_sfnf (cfg : DotmanConfig) (env : Env) (fs : FS) :
    exceptNotSFNF (status cfg env fs) := by
  unfold status statusOn
  have h := statusLinks_no_sfnf env fs cfg.get_effective_links
  cases h2 : statusLinks env fs cfg.get_effective_links with
  | error e =>
    rw [h2] at h
    cases e <;> simp_all [exceptNotSFNF]
  | ok cs => simp [h2, exceptNotSFNF]

/-- C8: an eligible link whose resolved source does not exist is
skipped with an Ignored record and an unchanged filesystem, and no
operation — install, remove or status — ever returns the latent
`SourceFileNotFound` error. -/
theorem missing_source_soft_skip :
    (∀ (cfg : DotmanConfig) (env : Env) (fs : FS) (l : Link) (s t : Str),
      resolvePath env l.source = .ok s →
      resolvePath env l.target = .ok t →
      Link.is_met env fs l env.os (hostnameArg env) = true →
      fsExists fs s = false →
      installLink cfg env fs l = .cont [.ignoredMissingSource s] fs)
    ∧ (∀ (cfg : DotmanConfig) (env : Env) (fs : FS) (src : Str),
        (install cfg env fs).2.2 ≠ some (.sourceFileNotFound src)
        ∧ (remove cfg env fs).2.2 ≠ some (.sourceFileNotFound src)
        ∧ status cfg env fs ≠ .error (.sourceFileNotFound src)) := by
  constructor
  · intro cfg env fs l s t hs ht hm hsrc
    simp [installLink, hs, ht, hm, hsrc]
  · intro cfg env fs src
    refine ⟨?_, ?_, ?_⟩
    · intro hc
      have h := install_no_sfnf cfg env fs
      rw [hc] at h
      simp [notSFNF] at h
    · intro hc
      have h := removeOn_no_sfnf env cfg.get_effective_links fs
      rw [show (remove cfg env fs).2.2 =
        (removeOn env fs cfg.get_effective_links).2.2 from rfl] at hc
      rw [hc] at h
      simp [notSFNF] at h
    · intro hc
      have h := status_no_sfnf cfg env fs
      rw [hc] at h
      simp [exceptNotSFNF] at h

/-- C8 witness (missing source: Ignored record, filesystem unchanged). -/
theorem missing_source_soft_skip_witness :
    installLink cfgC8 benignEnv [] linkC8 =
      .cont [.ignoredMissingSource ("/s8".toList)] [] :=
  missing_source_soft_skip.1 cfgC8 benignEnv [] linkC8
    ("/s8".toList) ("/t8".toList) rfl rfl (by decide) (by decide)

end Dotman
